import Mathlib

/-!
Verification development for the docling-mcp document-building server.

The Python source keeps two module-level dictionaries (`local_document_cache`
mapping a document key to a `DoclingDocument`, and `local_stack_cache` mapping
the same key to a list of node references that acts as the build stack).  The
tools in `generation.py`, `manipulation.py` and `conversion.py` are stateful
functions over those two dictionaries.  Here the state is made explicit: every
tool becomes a pure function `ServerState → ServerState × Except String String`
where a Python `raise ValueError` is modelled as returning the unchanged state
together with `.error msg` (the exception propagates before any mutation at
the point it is raised in the source).

The `DoclingDocument` tree itself lives in the external `docling_core`
library; its behaviour as used by this repository is modelled from the spec:
nodes live in per-kind collections (`texts`, `groups`, `tables`), an anchor is
`#/<collection>/<index>` with the 0-based creation index, anchors are never
reused, and the document body is an ordered tree of anchor references.
-/

namespace DoclingMcp

/-- The collection inside a document that a node is stored in; anchors are
`#/texts/i`, `#/groups/i`, `#/tables/i`. -/
inductive Coll where
  | texts
  | groups
  | tables
deriving DecidableEq, Repr

def Coll.cname : Coll → String
  | .texts => "texts"
  | .groups => "groups"
  | .tables => "tables"

/-- A stable node reference: collection plus 0-based creation index.
Modelled from the spec: the anchor string format is
`#/<collection>/<index>`, produced by the external tree implementation. -/
structure Anchor where
  coll : Coll
  idx : Nat
deriving DecidableEq, Repr

/-- The `cref` string of an anchor, as printed in overview lines. -/
def Anchor.cref (a : Anchor) : String :=
  "#/" ++ a.coll.cname ++ "/" ++ toString a.idx

/-- The kind (label) of a node, after the `DocItemLabel` / `GroupLabel`
values this repository actually creates. -/
inductive NodeKind where
  | title
  | sectionHeader (level : Nat)
  | text
  | caption
  | footnote
  | listItem
  | table
  | listGroup
  | orderedListGroup
deriving DecidableEq, Repr

/-- The label string used when a node is printed in an overview line. -/
def NodeKind.labelStr : NodeKind → String
  | .title => "title"
  | .sectionHeader _ => "section_header"
  | .text => "text"
  | .caption => "caption"
  | .footnote => "footnote"
  | .listItem => "list_item"
  | .table => "table"
  | .listGroup => "list"
  | .orderedListGroup => "ordered_list"

/-- `isinstance(x, GroupItem)` together with
`label == GroupLabel.LIST or label == GroupLabel.ORDERED_LIST`:
the only groups this repository creates carry exactly those two labels. -/
def NodeKind.isOpenListGroup : NodeKind → Bool
  | .listGroup => true
  | .orderedListGroup => true
  | _ => false

/-- `isinstance(x, TextItem)` in `docling_core`: titles, section headers,
plain text, captions, footnotes and list items are all `TextItem`
subclasses; tables and groups are not. -/
def NodeKind.isTextBearing : NodeKind → Bool
  | .title => true
  | .sectionHeader _ => true
  | .text => true
  | .caption => true
  | .footnote => true
  | .listItem => true
  | .table => false
  | .listGroup => false
  | .orderedListGroup => false

/-- Opaque payload of a parsed HTML table (`TableData` in `docling_core`);
its internal structure is irrelevant to the claims, only its identity. -/
structure TableData where
  payload : String
deriving DecidableEq, Repr

/-- One node of a document tree.  `furniture` records
`content_layer == ContentLayer.FURNITURE`; `children` is the ordered list of
child anchors (only groups get children here); `captions` / `footnotes` are
the ref lists of a table node; `tdata` is the table payload. -/
structure Node where
  kind : NodeKind
  text : String
  marker : String
  furniture : Bool
  children : List Anchor
  captions : List Anchor
  footnotes : List Anchor
  tdata : Option TableData
deriving DecidableEq, Repr

/-- A fresh text-like node (no children, no table payload). -/
def Node.mkText (kind : NodeKind) (text marker : String) (furniture : Bool) : Node :=
  { kind := kind, text := text, marker := marker, furniture := furniture,
    children := [], captions := [], footnotes := [], tdata := none }

/-- A document: per-collection arenas plus the ordered list of top-level body
children.  A slot holding `none` is a deleted node: `docling_core` invalidates
the anchors of deleted nodes and never reuses them (spec §4.3), which the
tombstone represents. -/
structure Document where
  name : String
  texts : List (Option Node)
  groups : List (Option Node)
  tables : List (Option Node)
  body : List Anchor
deriving DecidableEq, Repr

/-- `DoclingDocument(name="Generated Document")`. -/
def Document.fresh : Document :=
  { name := "Generated Document", texts := [], groups := [], tables := [], body := [] }

def Document.getColl (d : Document) : Coll → List (Option Node)
  | .texts => d.texts
  | .groups => d.groups
  | .tables => d.tables

def Document.setColl (d : Document) : Coll → List (Option Node) → Document
  | .texts, l => { d with texts := l }
  | .groups, l => { d with groups := l }
  | .tables, l => { d with tables := l }

/-- Modify the element at index `i` (identity when out of range). -/
def modifyAt (i : Nat) (f : α → α) : List α → List α
  | [] => []
  | x :: xs =>
    match i with
    | 0 => f x :: xs
    | j + 1 => x :: modifyAt j f xs

/-- `RefItem(cref=a).resolve(doc)`: look the anchor up in its collection;
out-of-range or deleted anchors do not resolve. -/
def Document.resolve (d : Document) (a : Anchor) : Option Node :=
  ((d.getColl a.coll)[a.idx]?).join

/-- Apply `f` to the (live) node at anchor `a`. -/
def Document.updateNode (d : Document) (a : Anchor) (f : Node → Node) : Document :=
  d.setColl a.coll (modifyAt a.idx (Option.map f) (d.getColl a.coll))

/-- Attach a freshly created anchor to its parent: with no parent the anchor
becomes a top-level body child, otherwise it is appended to the parent
group's `children` (as `docling_core.add_*` does with the `parent`
argument). -/
def Document.attach (d : Document) (parent : Option Anchor) (a : Anchor) : Document :=
  match parent with
  | none => { d with body := d.body ++ [a] }
  | some p => d.updateNode p (fun n => { n with children := n.children ++ [a] })

/-- `doc.add_text` / `doc.add_title` / `doc.add_heading` / `doc.add_list_item`:
append a text-collection node and attach it.  Returns the new document and
the new node's anchor.  Modelled from the spec: all of these `docling_core`
helpers store their item in the `texts` collection, whose anchor index is the
0-based creation order. -/
def Document.addTextNode (d : Document) (kind : NodeKind) (text marker : String)
    (furniture : Bool) (parent : Option Anchor) : Document × Anchor :=
  let a : Anchor := ⟨.texts, d.texts.length⟩
  let d1 : Document := { d with texts := d.texts ++ [some (Node.mkText kind text marker furniture)] }
  (d1.attach parent a, a)

/-- `doc.add_group(label=...)`: append a group node (a body child, as the
source never passes a parent). -/
def Document.addGroup (d : Document) (kind : NodeKind) : Document × Anchor :=
  let a : Anchor := ⟨.groups, d.groups.length⟩
  let d1 : Document := { d with groups := d.groups ++ [some (Node.mkText kind "" "" false)] }
  (d1.attach none a, a)

/-- `doc.add_table(data=...)`: append a table node as a body child. -/
def Document.addTable (d : Document) (data : TableData) : Document × Anchor :=
  let a : Anchor := ⟨.tables, d.tables.length⟩
  let node : Node := { Node.mkText .table "" "" false with tdata := some data }
  let d1 : Document := { d with tables := d.tables ++ [some node] }
  (d1.attach none a, a)

/-- Total number of node slots, used as traversal fuel (a well-formed tree is
never deeper than its node count). -/
def Document.size (d : Document) : Nat :=
  d.texts.length + d.groups.length + d.tables.length + 1

/-- Pre-order traversal worker: yields `(anchor, node, level)` for every live
non-furniture node reachable from the given anchors, children one level
deeper. -/
def Document.iterAux (d : Document) : Nat → Nat → List Anchor → List (Anchor × Node × Nat)
  | 0, _, _ => []
  | fuel + 1, level, as =>
    as.flatMap (fun a =>
      match d.resolve a with
      | none => []
      | some n =>
        (if n.furniture then [] else [(a, n, level)]) ++ d.iterAux fuel (level + 1) n.children)

/-- `doc.iterate_items()`: depth-first pre-order over the body, one entry per
live node with its nesting level (top-level children at level 1), skipping
furniture-layer items.  Modelled from the spec: "depth-first, pre-order
textual listing of a document tree: one line per node". -/
def Document.iterateItems (d : Document) : List (Anchor × Node × Nat) :=
  d.iterAux d.size 1 d.body

/-- All anchors reachable from `as` through `children` edges, including `as`
themselves (the nodes plus their subtrees, spec §4.3). -/
def Document.reachable (d : Document) : Nat → List Anchor → List Anchor
  | 0, _ => []
  | fuel + 1, as =>
    as.flatMap (fun a =>
      a :: (match d.resolve a with
            | none => []
            | some n => d.reachable fuel n.children))

/-- Delete the node at `a`: its slot becomes a tombstone, so the anchor no
longer resolves and is never reused. -/
def Document.tombstone (d : Document) (a : Anchor) : Document :=
  d.setColl a.coll (modifyAt a.idx (fun _ => none) (d.getColl a.coll))

/-- `doc.delete_items(node_items=...)`: remove the given nodes and their
subtrees.  Modelled from the spec: "removes all resolved nodes and their
subtrees from the tree. Anchors of deleted nodes become permanently invalid;
they must not be reused." -/
def Document.deleteItems (d : Document) (as : List Anchor) : Document :=
  (d.reachable d.size as).foldl Document.tombstone d

/-!  The server state: the two module-level dictionaries of
`docling_mcp.shared`.  A build-stack entry keeps the referenced node's anchor
together with its (immutable) kind, so the `isinstance(parent, GroupItem)` /
label tests of the source become a test on the recorded kind.  The Python
stack's last element (`stack[-1]`, the top) is the HEAD of the Lean list, so
`append` is cons, `pop` is tail and replacing the top rewrites the head. -/

/-- One entry of a per-document build stack. -/
structure StackEntry where
  anchor : Anchor
  kind : NodeKind
deriving DecidableEq, Repr

/-- The mutable server state: `local_document_cache` and `local_stack_cache`
as association lists from document key to value. -/
structure ServerState where
  local_document_cache : List (String × Document)
  local_stack_cache : List (String × List StackEntry)
deriving DecidableEq, Repr

/-- The empty server state (both caches empty, as at process start). -/
def ServerState.empty : ServerState := { local_document_cache := [], local_stack_cache := [] }

/-- Dictionary lookup (`cache[key]` / `key in cache`). -/
def lookupKey (k : String) : List (String × α) → Option α
  | [] => none
  | (k', v) :: rest => if k = k' then some v else lookupKey k rest

/-- Dictionary store (`cache[key] = v`): replaces the binding if present,
appends it otherwise. -/
def setKey (k : String) (v : α) : List (String × α) → List (String × α)
  | [] => [(k, v)]
  | (k', v') :: rest => if k = k' then (k, v) :: rest else (k', v') :: setKey k v rest

/-- The comma-separated key list used in the `not found` error messages. -/
def keysOf (m : List (String × α)) : String :=
  String.intercalate ", " (m.map (·.1))

/-- Result of one tool call: Python `raise` is `.error`, a normal return is
`.ok` with the returned message. -/
abbrev ToolRes := Except String String

/-- Every tool is a pure function of the server state; a failing call leaves
the state exactly as it was (in the source every `raise` happens before any
mutation). -/
abbrev Tool := ServerState → ServerState × ToolRes

/-- The `document-key not found` error raised at the top of every keyed
tool. -/
def keyNotFoundMsg (key : String) (s : ServerState) : String :=
  s!"document-key: {key} is not found. Existing document-keys are: " ++ keysOf s.local_document_cache

/-- The `Stack size is zero` error message. -/
def stackZeroMsg (key : String) : String :=
  s!"Stack size is zero for document with document-key: {key}. Abort document generation"

/-- `hash_string_md5` in `generation.py` delegates to `hashlib.md5`
(external library).  Modelled from the spec: the key is a deterministic
digest of the input string; the stand-in below is any fixed deterministic
string function. -/
def hash_string_md5 (input_string : String) : String :=
  "md5-" ++ toString (input_string.foldl (fun a c => (a * 33 + c.toNat) % 1000000007) 5381)

/-- `create_new_docling_document(prompt)`: build a fresh document holding the
prompt as a furniture text item, key it by the md5 hash of the prompt, and
store document and one-element stack under that key (overwriting any
previous binding — the source assigns unconditionally). -/
def create_new_docling_document (prompt : String) : Tool := fun s =>
  let doc := Document.fresh
  let r := doc.addTextNode .text ("prompt: " ++ prompt) "" true none
  let document_key := hash_string_md5 prompt
  ({ local_document_cache := setKey document_key r.1 s.local_document_cache,
     local_stack_cache := setKey document_key [⟨r.2, .text⟩] s.local_stack_cache },
   .ok (s!"document-key: {document_key} for prompt:" ++ "`" ++ prompt ++ "`"))

/-- `doc.export_to_markdown()` lives in the external `docling_core` library.
Modelled from the spec: a markdown rendering of the document, i.e. some
deterministic pure function of the tree; the stand-in below is any such
function (no claim inspects its output). -/
def exportToMarkdown (d : Document) : String :=
  String.intercalate "\n" (d.texts.filterMap (Option.map (·.text)))

/-- `export_docling_document_to_markdown(document_key)`: read-only export of
a cached document. -/
def export_docling_document_to_markdown (document_key : String) : Tool := fun s =>
  match lookupKey document_key s.local_document_cache with
  | none => (s, .error (keyNotFoundMsg document_key s))
  | some doc =>
    (s, .ok ("Markdown export for document with key: " ++ document_key ++ "\n\n"
      ++ exportToMarkdown doc ++ "\n\n"))

/-- `save_docling_document(document_key)`: writes the markdown and JSON
renderings to disk (an external effect outside the modelled state) and
leaves both caches untouched. -/
def save_docling_document (document_key : String) : Tool := fun s =>
  match lookupKey document_key s.local_document_cache with
  | none => (s, .error (keyNotFoundMsg document_key s))
  | some _ =>
    (s, .ok ("document saved at " ++ document_key ++ ".md"))

/-- Shared body of `add_title` / `add_section_heading` / `add_paragraph`:
check key, stack presence and size, refuse when the stack top is an open
list group, otherwise add the node as a body child and replace the stack
top with it.  `mk` builds the node for the concrete tool and `listMsg` is
its specific `A list is currently opened` message. -/
def addSiblingNode (key : String) (kind : NodeKind) (text : String)
    (listMsg okMsg : String) : Tool := fun s =>
  match lookupKey key s.local_document_cache with
  | none => (s, .error (keyNotFoundMsg key s))
  | some doc =>
    match lookupKey key s.local_stack_cache with
    | none => (s, .error s!"KeyError: {key}")
    | some stack =>
      match stack with
      | [] => (s, .error (stackZeroMsg key))
      | parent :: rest =>
        if parent.kind.isOpenListGroup then
          (s, .error listMsg)
        else
          let r := doc.addTextNode kind text "" false none
          ({ local_document_cache := setKey key r.1 s.local_document_cache,
             local_stack_cache := setKey key (⟨r.2, kind⟩ :: rest) s.local_stack_cache },
           .ok okMsg)

/-- `add_title_to_docling_document(document_key, title)`. -/
def add_title_to_docling_document (document_key title : String) : Tool :=
  addSiblingNode document_key .title title
    "A list is currently opened. Please close the list before adding a title!"
    s!"updated title for document with key: {document_key}"

/-- `add_section_heading_to_docling_document(document_key, section_heading,
section_level)`. -/
def add_section_heading_to_docling_document
    (document_key section_heading : String) (section_level : Nat) : Tool :=
  addSiblingNode document_key (.sectionHeader section_level) section_heading
    "A list is currently opened. Please close the list before adding a section-heading!"
    s!"added section-heading of level {section_level} for document with key: {document_key}"

/-- `add_paragraph_to_docling_document(document_key, paragraph)`. -/
def add_paragraph_to_docling_document (document_key paragraph : String) : Tool :=
  addSiblingNode document_key .text paragraph
    "A list is currently opened. Please close the list before adding a paragraph!"
    s!"added paragraph for document with key: {document_key}"

/-- `open_list_in_docling_document(document_key)`: add a `GroupLabel.LIST`
group to the document (a body child) and push it on the stack. -/
def open_list_in_docling_document (document_key : String) : Tool := fun s =>
  match lookupKey document_key s.local_document_cache with
  | none => (s, .error (keyNotFoundMsg document_key s))
  | some doc =>
    match lookupKey document_key s.local_stack_cache with
    | none => (s, .error s!"KeyError: {document_key}")
    | some stack =>
      match stack with
      | [] => (s, .error (stackZeroMsg document_key))
      | parent :: rest =>
        let r := doc.addGroup .listGroup
        ({ local_document_cache := setKey document_key r.1 s.local_document_cache,
           local_stack_cache := setKey document_key (⟨r.2, .listGroup⟩ :: parent :: rest) s.local_stack_cache },
         .ok s!"opened a new list for document with key: {document_key}")

/-- `close_list_in_docling_document(document_key)`: requires stack size > 1,
then pops the stack; the document tree is untouched. -/
def close_list_in_docling_document (document_key : String) : Tool := fun s =>
  match lookupKey document_key s.local_document_cache with
  | none => (s, .error (keyNotFoundMsg document_key s))
  | some _ =>
    match lookupKey document_key s.local_stack_cache with
    | none => (s, .error s!"KeyError: {document_key}")
    | some stack =>
      if stack.length ≤ 1 then
        (s, .error (stackZeroMsg document_key))
      else
        ({ s with local_stack_cache := setKey document_key stack.tail s.local_stack_cache },
         .ok s!"closed list for document with key: {document_key}")

/-- One `ListItem` input of `add_list_items_to_list_in_docling_document`:
a `list_item_text` / `list_marker_text` pair. -/
structure ListItemInput where
  list_item_text : String
  list_marker_text : String
deriving DecidableEq, Repr

/-- The loop of `add_list_items_to_list_in_docling_document`: one
`doc.add_list_item(text=..., marker=..., parent=parent)` call per entry, in
input order. -/
def addListItemsLoop (parent : Anchor) : Document → List ListItemInput → Document
  | d, [] => d
  | d, it :: rest =>
    addListItemsLoop parent (d.addTextNode .listItem it.list_item_text it.list_marker_text false (some parent)).1 rest

/-- The `No list is currently opened` error message. -/
def noListOpenMsg : String :=
  "No list is currently opened. Please open a list before adding list-items!"

/-- `add_list_items_to_list_in_docling_document(document_key, list_items)`:
requires the stack top to be a `List`/`OrderedList` group, then adds one list
item per entry as a child of that group; the stack is not touched. -/
def add_list_items_to_list_in_docling_document
    (document_key : String) (list_items : List ListItemInput) : Tool := fun s =>
  match lookupKey document_key s.local_document_cache with
  | none => (s, .error (keyNotFoundMsg document_key s))
  | some doc =>
    match lookupKey document_key s.local_stack_cache with
    | none => (s, .error s!"KeyError: {document_key}")
    | some stack =>
      match stack with
      | [] => (s, .error (stackZeroMsg document_key))
      | parent :: _ =>
        if parent.kind.isOpenListGroup then
          ({ s with local_document_cache :=
               setKey document_key (addListItemsLoop parent.anchor doc list_items) s.local_document_cache },
           .ok s!"added list_items to list in document with key: {document_key}")
        else
          (s, .error noListOpenMsg)

/-- The caption loop of `add_table_in_html_format_to_docling_document`: for
each caption string, `doc.add_text(label=CAPTION, text=...)` (a body child)
followed by `table.captions.append(caption.get_ref())`. -/
def addCaptionsLoop (ta : Anchor) : Document → List String → Document
  | d, [] => d
  | d, c :: rest =>
    let r := d.addTextNode .caption c "" false none
    addCaptionsLoop ta (r.1.updateNode ta (fun n => { n with captions := n.captions ++ [r.2] })) rest

/-- The footnote loop of `add_table_in_html_format_to_docling_document`. -/
def addFootnotesLoop (ta : Anchor) : Document → List String → Document
  | d, [] => d
  | d, c :: rest =>
    let r := d.addTextNode .footnote c "" false none
    addFootnotesLoop ta (r.1.updateNode ta (fun n => { n with footnotes := n.footnotes ++ [r.2] })) rest

/-- `add_table_in_html_format_to_docling_document(document_key, html_table,
table_captions, table_footnotes)`.  The HTML parse is performed by the
external `DocumentConverter` before any mutation of the cached document; it
is modelled by its outcome: `convOk` is `status == ConversionStatus.SUCCESS`
and `parsedTables` the `tables` list of the conversion result.  On success
only `parsedTables[0]` is inserted, then captions and footnotes in input
order; the stack is never touched. -/
def add_table_in_html_format_to_docling_document
    (document_key : String) (convOk : Bool) (parsedTables : List TableData)
    (table_captions table_footnotes : List String) : Tool := fun s =>
  match lookupKey document_key s.local_document_cache with
  | none => (s, .error (keyNotFoundMsg document_key s))
  | some doc =>
    match lookupKey document_key s.local_stack_cache with
    | none => (s, .error s!"KeyError: {document_key}")
    | some stack =>
      match stack with
      | [] => (s, .error (stackZeroMsg document_key))
      | _ :: _ =>
        match convOk, parsedTables with
        | true, t0 :: _ =>
          let r := doc.addTable t0
          let d1 := addCaptionsLoop r.2 r.1 table_captions
          let d2 := addFootnotesLoop r.2 d1 table_footnotes
          ({ s with local_document_cache := setKey document_key d2 s.local_document_cache },
           .ok s!"Added table to a document with key: {document_key}")
        | true, [] =>
          (s, .error "Could not parse the html string of the table! Please fix the html and try again!")
        | false, _ =>
          (s, .error "Could not parse the html string of the table! Please fix the html and try again!")

/-!  `manipulation.py`. -/

/-- Two spaces per indentation unit, as in `"  " * n`. -/
def indentStr (n : Nat) : String :=
  String.join (List.replicate n "  ")

/-- One line of the overview, given the running section-heading level
`slevel` (set by the most recent section-header line, including the current
one).  Mirrors the three branches of the loop body in
`get_overview_of_document_anchors`: titles carry no indentation, a section
header is indented `level + slevel` (its own level) and notes
`label-{level}`, every other item is indented `level + slevel + 1`. -/
def overviewLine (slevel : Nat) (x : Anchor × Node × Nat) : String :=
  match x.2.1.kind with
  | .title => s!"[anchor:{x.1.cref}] title: {x.2.1.text}"
  | .sectionHeader l =>
    indentStr (x.2.2 + l) ++ s!"[anchor:{x.1.cref}] section_header-{x.2.2}: {x.2.1.text}"
  | k => indentStr (x.2.2 + slevel + 1) ++ s!"[anchor:{x.1.cref}] " ++ k.labelStr

/-- The `slevel` update of the overview loop: a section header overwrites
the running level with its own, every other item leaves it unchanged. -/
def slevelUpd (acc : Nat) (x : Anchor × Node × Nat) : Nat :=
  match x.2.1.kind with
  | .sectionHeader lv => lv
  | _ => acc

/-- The running-state loop of `get_overview_of_document_anchors`: `slevel`
starts at 0 and is overwritten by the level of every section header
encountered, in iteration order; each line is rendered with the value
`slevel` has AFTER processing the current item (the source assigns
`slevel = item.level` before building a heading's line, and a non-heading
item leaves `slevel` unchanged). -/
def overviewLinesAux (slevel : Nat) : List (Anchor × Node × Nat) → List String
  | [] => []
  | x :: rest =>
    overviewLine (slevelUpd slevel x) x :: overviewLinesAux (slevelUpd slevel x) rest

/-- All overview lines of a document. -/
def overviewLines (d : Document) : List String :=
  overviewLinesAux 0 d.iterateItems

/-- `get_overview_of_document_anchors(document_key)`: a read-only projection
of the document tree. -/
def get_overview_of_document_anchors (document_key : String) : Tool := fun s =>
  match lookupKey document_key s.local_document_cache with
  | none => (s, .error (keyNotFoundMsg document_key s))
  | some doc => (s, .ok (String.intercalate "\n" (overviewLines doc)))

/-- The `not a textual item` error of the two anchor text tools. -/
def notTextualMsg (document_anchor document_key : String) : String :=
  s!"Item at {document_anchor} for document-key: {document_key} is not a textual item."

/-- The error raised by `RefItem.resolve` when an anchor does not reference a
live node of the given document. -/
def resolveFailMsg (document_anchor : String) : String :=
  s!"Anchor {document_anchor} does not resolve."

/-- `get_text_of_document_item_at_anchor(document_key, document_anchor)`:
resolve the anchor, require a `TextItem`, and return its text. -/
def get_text_of_document_item_at_anchor (document_key : String) (document_anchor : Anchor) : Tool :=
  fun s =>
  match lookupKey document_key s.local_document_cache with
  | none => (s, .error (keyNotFoundMsg document_key s))
  | some doc =>
    match doc.resolve document_anchor with
    | none => (s, .error (resolveFailMsg document_anchor.cref))
    | some item =>
      if item.kind.isTextBearing then
        (s, .ok (s!"The text of {document_anchor.cref} for document-key with {document_key} is:\n\n"
          ++ "```" ++ item.text ++ "```\n\n"))
      else
        (s, .error (notTextualMsg document_anchor.cref document_key))

/-- `update_text_of_document_item_at_anchor(document_key, document_anchor,
updated_text)`: resolve the anchor, require a `TextItem`, and overwrite its
`text` field in place. -/
def update_text_of_document_item_at_anchor
    (document_key : String) (document_anchor : Anchor) (updated_text : String) : Tool := fun s =>
  match lookupKey document_key s.local_document_cache with
  | none => (s, .error (keyNotFoundMsg document_key s))
  | some doc =>
    match doc.resolve document_anchor with
    | none => (s, .error (resolveFailMsg document_anchor.cref))
    | some item =>
      if item.kind.isTextBearing then
        let d1 := doc.updateNode document_anchor (fun n => { n with text := updated_text })
        ({ s with local_document_cache := setKey document_key d1 s.local_document_cache },
         .ok s!"Updated the text at {document_anchor.cref} for document with key {document_key}")
      else
        (s, .error (notTextualMsg document_anchor.cref document_key))

/-- The resolve-all loop of `delete_document_items_at_anchors`: anchors are
resolved one by one, in order, before anything is deleted; the first failure
aborts the whole call. -/
def resolveAllAnchors (d : Document) : List Anchor → Option (List Anchor)
  | [] => some []
  | a :: rest =>
    match d.resolve a with
    | none => none
    | some _ => (resolveAllAnchors d rest).map (a :: ·)

/-- `delete_document_items_at_anchors(document_key, document_anchors)`:
resolve every anchor first (any failure aborts before any deletion), then
`doc.delete_items` removes all the referenced nodes and their subtrees. -/
def delete_document_items_at_anchors
    (document_key : String) (document_anchors : List Anchor) : Tool := fun s =>
  match lookupKey document_key s.local_document_cache with
  | none => (s, .error (keyNotFoundMsg document_key s))
  | some doc =>
    match resolveAllAnchors doc document_anchors with
    | none => (s, .error (resolveFailMsg "one of the given anchors"))
    | some items =>
      ({ s with local_document_cache :=
           setKey document_key (doc.deleteItems items) s.local_document_cache },
       .ok s!"Deleted the anchors for document with key {document_key}")

/-!  `conversion.py`. -/

/-- `get_cache_key` of `docling_mcp.docling_cache` (file not part of the
analysed sources).  Modelled from the spec: a deterministic key derived from
the source string. -/
def get_cache_key (source : String) : String :=
  "cache-" ++ hash_string_md5 source

/-- `convert_pdf_document_into_json_docling_document_from_uri_path(source)`:
the external PDF conversion is modelled by its outcome (`convOk`, and the
resulting tree `resultDoc` when it succeeds).  If the cache key already
exists the call returns `(False, ...)` without touching anything; on a failed
conversion an `McpError` is raised with nothing cached; on success the
converted document gets a furniture `source: ...` text item and document and
one-element stack are stored under the cache key. -/
def convert_pdf_document_into_json_docling_document_from_uri_path
    (source : String) (convOk : Bool) (resultDoc : Document) :
    ServerState → ServerState × Except String (Bool × String) := fun s =>
  match lookupKey (get_cache_key source) s.local_document_cache with
  | some _ => (s, .ok (false, "Document already exists in the system cache."))
  | none =>
    if convOk then
      let r := resultDoc.addTextNode .text ("source: " ++ source) "" true none
      ({ local_document_cache := setKey (get_cache_key source) r.1 s.local_document_cache,
         local_stack_cache := setKey (get_cache_key source) [⟨r.2, .text⟩] s.local_stack_cache },
       .ok (true, get_cache_key source))
    else
      (s, .error "Conversion failed")

/-!  Basic lemmas about the dictionary and arena helpers. -/

theorem lookupKey_setKey_self (k : String) (v : α) (m : List (String × α)) :
    lookupKey k (setKey k v m) = some v := by
  induction m with
  | nil => simp [setKey, lookupKey]
  | cons p rest ih =>
    obtain ⟨k', v'⟩ := p
    by_cases h : k = k' <;> simp [setKey, lookupKey, h, ih]

theorem lookupKey_setKey_ne (h : k₂ ≠ k) (v : α) (m : List (String × α)) :
    lookupKey k₂ (setKey k v m) = lookupKey k₂ m := by
  induction m with
  | nil => simp [setKey, lookupKey, h]
  | cons p rest ih =>
    obtain ⟨k', v'⟩ := p
    by_cases h1 : k = k' <;> by_cases h2 : k₂ = k' <;>
      simp_all [setKey, lookupKey]

theorem setKey_setKey_self (k : String) (v w : α) (m : List (String × α)) :
    setKey k v (setKey k w m) = setKey k v m := by
  induction m with
  | nil => simp [setKey]
  | cons p rest ih =>
    obtain ⟨k', v'⟩ := p
    by_cases h : k = k' <;> simp [setKey, h, ih]

theorem modifyAt_getElem_self (i : Nat) (f : α → α) (l : List α) :
    (modifyAt i f l)[i]? = (l[i]?).map f := by
  induction l generalizing i with
  | nil => simp [modifyAt]
  | cons x xs ih =>
    cases i with
    | zero => simp [modifyAt]
    | succ j => simpa [modifyAt] using ih j

theorem modifyAt_getElem_ne (h : j ≠ i) (f : α → α) (l : List α) :
    (modifyAt i f l)[j]? = l[j]? := by
  induction l generalizing i j with
  | nil => simp [modifyAt]
  | cons x xs ih =>
    cases i with
    | zero =>
      cases j with
      | zero => exact absurd rfl h
      | succ j' => simp [modifyAt]
    | succ i' =>
      cases j with
      | zero => simp [modifyAt]
      | succ j' =>
        have : j' ≠ i' := fun hj => h (by simp [hj])
        simpa [modifyAt] using ih this

theorem getColl_setColl_self (d : Document) (c : Coll) (l : List (Option Node)) :
    (d.setColl c l).getColl c = l := by
  cases c <;> rfl

theorem getColl_setColl_ne (d : Document) (h : c₂ ≠ c) (l : List (Option Node)) :
    (d.setColl c l).getColl c₂ = d.getColl c₂ := by
  cases c <;> cases c₂ <;> first
    | rfl
    | exact absurd rfl h

theorem resolve_updateNode_self (d : Document) (a : Anchor) (f : Node → Node) :
    (d.updateNode a f).resolve a = (d.resolve a).map f := by
  unfold Document.updateNode Document.resolve
  rw [getColl_setColl_self, modifyAt_getElem_self]
  cases (d.getColl a.coll)[a.idx]? with
  | none => rfl
  | some o => cases o <;> rfl

theorem resolve_updateNode_ne (d : Document) (h : b ≠ a) (f : Node → Node) :
    (d.updateNode a f).resolve b = d.resolve b := by
  unfold Document.updateNode Document.resolve
  by_cases hc : b.coll = a.coll
  · have hidx : b.idx ≠ a.idx := by
      intro hi
      exact h (by cases a; cases b; simp_all)
    rw [hc, getColl_setColl_self, ← hc, modifyAt_getElem_ne hidx, hc]
  · rw [getColl_setColl_ne d hc]

theorem resolve_tombstone_self (d : Document) (a : Anchor) :
    (d.tombstone a).resolve a = none := by
  unfold Document.tombstone Document.resolve
  rw [getColl_setColl_self, modifyAt_getElem_self]
  cases (d.getColl a.coll)[a.idx]? <;> rfl

theorem resolve_tombstone_ne (d : Document) (h : b ≠ a) :
    (d.tombstone a).resolve b = d.resolve b := by
  unfold Document.tombstone Document.resolve
  by_cases hc : b.coll = a.coll
  · have hidx : b.idx ≠ a.idx := by
      intro hi
      exact h (by cases a; cases b; simp_all)
    rw [hc, getColl_setColl_self, ← hc, modifyAt_getElem_ne hidx, hc]
  · rw [getColl_setColl_ne d hc]

theorem resolve_foldl_tombstone_of_none (l : List Anchor) (d : Document) (a : Anchor)
    (h : d.resolve a = none) :
    (l.foldl Document.tombstone d).resolve a = none := by
  induction l generalizing d with
  | nil => simpa using h
  | cons b rest ih =>
    simp only [List.foldl_cons]
    apply ih
    by_cases hb : a = b
    · subst hb; exact resolve_tombstone_self d a
    · rw [resolve_tombstone_ne d hb]; exact h

theorem resolve_foldl_tombstone_of_mem (l : List Anchor) (d : Document) (a : Anchor)
    (h : a ∈ l) :
    (l.foldl Document.tombstone d).resolve a = none := by
  induction l generalizing d with
  | nil => cases h
  | cons b rest ih =>
    simp only [List.foldl_cons]
    rcases List.mem_cons.mp h with hb | hr
    · subst hb
      exact resolve_foldl_tombstone_of_none rest _ a (resolve_tombstone_self d a)
    · exact ih _ hr

theorem resolveAllAnchors_eq_none_iff (d : Document) (as : List Anchor) :
    resolveAllAnchors d as = none ↔ ∃ a ∈ as, d.resolve a = none := by
  induction as with
  | nil => simp [resolveAllAnchors]
  | cons a rest ih =>
    cases h : d.resolve a with
    | none =>
      simp only [resolveAllAnchors, h]
      exact iff_of_true (by simp) ⟨a, List.mem_cons_self a rest, h⟩
    | some n =>
      simp only [resolveAllAnchors, h]
      cases hrest : resolveAllAnchors d rest with
      | none =>
        obtain ⟨b, hb, hres⟩ := ih.mp hrest
        exact iff_of_true (by simp) ⟨b, List.mem_cons_of_mem a hb, hres⟩
      | some l' =>
        constructor
        · intro hcontra; simp at hcontra
        · rintro ⟨b, hb, hres⟩
          rcases List.mem_cons.mp hb with hba | hbr
          · subst hba; rw [h] at hres; cases hres
          · have hnone : resolveAllAnchors d rest = none := ih.mpr ⟨b, hbr, hres⟩
            rw [hnone] at hrest; cases hrest

theorem resolveAllAnchors_some_eq (d : Document) (as : List Anchor)
    (h : resolveAllAnchors d as = some l) : l = as := by
  induction as generalizing l with
  | nil =>
    simp only [resolveAllAnchors] at h
    injection h with h2
    exact h2.symm
  | cons a rest ih =>
    cases hres : d.resolve a with
    | none => simp [resolveAllAnchors, hres] at h
    | some n =>
      simp only [resolveAllAnchors, hres] at h
      cases hrest : resolveAllAnchors d rest with
      | none => rw [hrest] at h; simp at h
      | some l' =>
        rw [hrest] at h
        injection h with h2
        rw [← h2, ih hrest]

theorem mem_reachable_self (d : Document) (fuel : Nat) (as : List Anchor)
    (h : a ∈ as) : a ∈ d.reachable (fuel + 1) as := by
  unfold Document.reachable
  exact List.mem_flatMap.mpr ⟨a, h, List.mem_cons_self _ _⟩

theorem mem_reachable_size (d : Document) (as : List Anchor)
    (h : a ∈ as) : a ∈ d.reachable d.size as := by
  unfold Document.size
  exact mem_reachable_self d _ as h

/-!  Claim theorems. -/

/-- C1: for every prompt `P`, calling `create_new_docling_document` twice in
a row with the same `P` returns the same confirmation (in particular the
same document key, the deterministic md5 hash of `P`), and the server state
after the second call is exactly the state after the first call: the content
stored under that key by the first call is unchanged by the second call. -/
theorem C1_create_twice_same_key_same_content (prompt : String) (s : ServerState) :
    create_new_docling_document prompt (create_new_docling_document prompt s).1
      = create_new_docling_document prompt s := by
  unfold create_new_docling_document
  simp [setKey_setKey_self]

/-- C3: whenever the build-stack top of a registered document is a
`List`/`OrderedList` group, `add_title`, `add_section_heading` and
`add_paragraph` each fail with their `A list is currently opened` validation
error and return the server state (document tree and build stack) exactly as
it was. -/
theorem C3_sibling_ops_fail_inside_open_list
    (key title heading para : String) (lvl : Nat) (s : ServerState)
    (doc : Document) (e : StackEntry) (rest : List StackEntry)
    (hdoc : lookupKey key s.local_document_cache = some doc)
    (hst : lookupKey key s.local_stack_cache = some (e :: rest))
    (hkind : e.kind.isOpenListGroup = true) :
    add_title_to_docling_document key title s
      = (s, .error "A list is currently opened. Please close the list before adding a title!")
    ∧ add_section_heading_to_docling_document key heading lvl s
      = (s, .error "A list is currently opened. Please close the list before adding a section-heading!")
    ∧ add_paragraph_to_docling_document key para s
      = (s, .error "A list is currently opened. Please close the list before adding a paragraph!") := by
  unfold add_title_to_docling_document add_section_heading_to_docling_document
    add_paragraph_to_docling_document addSiblingNode
  simp [hdoc, hst, hkind]

/-- A concrete document whose only node is an open list group, with the
matching one-entry build stack and server state; used by witnesses. -/
def exListDoc : Document :=
  { name := "d", texts := [], groups := [some (Node.mkText .listGroup "" "" false)],
    tables := [], body := [⟨Coll.groups, 0⟩] }

def exListStack : List StackEntry := [⟨⟨Coll.groups, 0⟩, .listGroup⟩]

def exListState : ServerState :=
  { local_document_cache := [("k", exListDoc)], local_stack_cache := [("k", exListStack)] }

/-- Witness for C3 at a concrete state whose stack top is an open list. -/
theorem C3_sibling_ops_fail_inside_open_list_witness :
    add_title_to_docling_document "k" "T" exListState
      = (exListState,
         .error "A list is currently opened. Please close the list before adding a title!") :=
  (C3_sibling_ops_fail_inside_open_list "k" "T" "H" "P" 1 exListState exListDoc
    ⟨⟨Coll.groups, 0⟩, .listGroup⟩ [] (by decide) (by decide) (by decide)).1

/-- C4: for a registered document, `open_list` immediately followed by
`close_list` restores the build stack exactly (in particular its depth), and
`close_list` invoked with stack depth at most 1 fails with the validation
error and changes nothing. -/
theorem C4_open_close_list_inverse
    (key : String) (s : ServerState) (doc : Document) (st : List StackEntry)
    (hdoc : lookupKey key s.local_document_cache = some doc)
    (hst : lookupKey key s.local_stack_cache = some st) :
    (st ≠ [] →
      lookupKey key
        ((close_list_in_docling_document key
            (open_list_in_docling_document key s).1).1).local_stack_cache = some st)
    ∧ (st.length ≤ 1 →
      close_list_in_docling_document key s = (s, .error (stackZeroMsg key))) := by
  constructor
  · intro hne
    match st, hne with
    | e :: rest, _ =>
      unfold open_list_in_docling_document
      simp only [hdoc, hst]
      unfold close_list_in_docling_document
      simp [lookupKey_setKey_self]
  · intro hlen
    unfold close_list_in_docling_document
    simp [hdoc, hst, hlen]

/-- A concrete document with one text node, a one-entry build stack and the
corresponding server state; used by witnesses. -/
def exTextDoc : Document :=
  { name := "d", texts := [some (Node.mkText .text "t" "" false)],
    groups := [], tables := [], body := [⟨Coll.texts, 0⟩] }

def exTextStack : List StackEntry := [⟨⟨Coll.texts, 0⟩, .text⟩]

def exTextState : ServerState :=
  { local_document_cache := [("k", exTextDoc)], local_stack_cache := [("k", exTextStack)] }

/-- Witness for C4 at a concrete one-entry stack. -/
theorem C4_open_close_list_inverse_witness :
    lookupKey "k"
      ((close_list_in_docling_document "k"
          (open_list_in_docling_document "k" exTextState).1).1).local_stack_cache
        = some exTextStack
    ∧ close_list_in_docling_document "k" exTextState
        = (exTextState, .error (stackZeroMsg "k")) := by
  refine ⟨?_, ?_⟩
  · exact (C4_open_close_list_inverse "k" exTextState exTextDoc exTextStack
      (by decide) (by decide)).1 (by decide)
  · exact (C4_open_close_list_inverse "k" exTextState exTextDoc exTextStack
      (by decide) (by decide)).2 (by decide)

/-- C2: for every registered document, if at least one of the given anchors
does not resolve, `delete_document_items_at_anchors` fails and deletes
nothing (the server state, and so the tree, is exactly as before); if all
anchors resolve, every referenced node and its whole subtree (the anchors
reachable through `children` edges) no longer resolves afterwards. -/
theorem C2_delete_items_atomic (key : String) (anchors : List Anchor) (s : ServerState)
    (doc : Document)
    (hdoc : lookupKey key s.local_document_cache = some doc) :
    ((∃ a ∈ anchors, doc.resolve a = none) →
      delete_document_items_at_anchors key anchors s
        = (s, .error (resolveFailMsg "one of the given anchors")))
    ∧ ((∀ a ∈ anchors, (doc.resolve a).isSome) →
      ∃ d', lookupKey key
          ((delete_document_items_at_anchors key anchors s).1).local_document_cache = some d'
        ∧ (∀ a ∈ doc.reachable doc.size anchors, d'.resolve a = none)
        ∧ (∀ a ∈ anchors, d'.resolve a = none)) := by
  constructor
  · intro hex
    have hnone : resolveAllAnchors doc anchors = none :=
      (resolveAllAnchors_eq_none_iff doc anchors).mpr hex
    unfold delete_document_items_at_anchors
    simp [hdoc, hnone]
  · intro hall
    cases hres : resolveAllAnchors doc anchors with
    | none =>
      obtain ⟨a, ha, hn⟩ := (resolveAllAnchors_eq_none_iff doc anchors).mp hres
      have hs := hall a ha
      rw [hn] at hs
      cases hs
    | some l =>
      have hl : l = anchors := resolveAllAnchors_some_eq doc anchors hres
      rw [hl] at hres
      unfold delete_document_items_at_anchors
      simp only [hdoc, hres]
      refine ⟨doc.deleteItems anchors, by simp [lookupKey_setKey_self], ?_, ?_⟩
      · intro a ha
        exact resolve_foldl_tombstone_of_mem _ _ _ ha
      · intro a ha
        exact resolve_foldl_tombstone_of_mem _ _ _ (mem_reachable_size doc anchors ha)

/-- Witness for C2: deleting an unresolvable anchor fails and leaves the
concrete state untouched. -/
theorem C2_delete_items_atomic_witness :
    delete_document_items_at_anchors "k" [⟨Coll.texts, 5⟩] exTextState
      = (exTextState, .error (resolveFailMsg "one of the given anchors")) :=
  (C2_delete_items_atomic "k" [⟨Coll.texts, 5⟩] exTextState exTextDoc (by decide)).1
    (by decide)

theorem resolve_mk_of_ne_texts (d : Document) (t : List (Option Node)) (b : List Anchor)
    (a : Anchor) (h : a.coll ≠ Coll.texts) :
    (Document.mk d.name t d.groups d.tables b).resolve a = d.resolve a := by
  obtain ⟨c, i⟩ := a
  cases c
  · exact absurd rfl h
  · rfl
  · rfl

theorem updateNode_texts (d : Document) (a : Anchor) (f : Node → Node)
    (h : a.coll ≠ Coll.texts) :
    (d.updateNode a f).texts = d.texts := by
  obtain ⟨c, i⟩ := a
  cases c
  · exact absurd rfl h
  · rfl
  · rfl

/-- The node created for one list-item input. -/
def listItemNode (it : ListItemInput) : Option Node :=
  some (Node.mkText .listItem it.list_item_text it.list_marker_text false)

/-- `g` with extra children appended (in order). -/
def appendChildren (g : Node) (as : List Anchor) : Node :=
  { g with children := g.children ++ as }

/-- The anchors `#/texts/base .. #/texts/(base+n-1)`, the `texts` slots that
`n` consecutively created text nodes receive. -/
def textAnchorsFrom (base n : Nat) : List Anchor :=
  (List.range' base n).map (fun i => ⟨Coll.texts, i⟩)

theorem textAnchorsFrom_succ (base n : Nat) :
    textAnchorsFrom base (n + 1) = ⟨Coll.texts, base⟩ :: textAnchorsFrom (base + 1) n := by
  unfold textAnchorsFrom
  rw [List.range'_succ]
  rfl

theorem appendChildren_append (g : Node) (as bs : List Anchor) :
    appendChildren (appendChildren g as) bs = appendChildren g (as ++ bs) := by
  simp [appendChildren]

/-- What the `add_list_items` loop does to the document: it appends one list
item node per input, in input order, to the `texts` arena, and appends the
matching anchors, in the same order, to the parent group's `children`. -/
theorem addListItemsLoop_spec (p : Anchor) (hp : p.coll = Coll.groups)
    (items : List ListItemInput) :
    ∀ d : Document,
      (addListItemsLoop p d items).texts = d.texts ++ items.map listItemNode
      ∧ ∀ g, d.resolve p = some g →
          (addListItemsLoop p d items).resolve p
            = some (appendChildren g (textAnchorsFrom d.texts.length items.length)) := by
  have hpne : p.coll ≠ Coll.texts := by rw [hp]; intro hc; cases hc
  induction items with
  | nil =>
    intro d
    refine ⟨by simp [addListItemsLoop], ?_⟩
    intro g hg
    simp [addListItemsLoop, hg, appendChildren, textAnchorsFrom]
  | cons it rest ih =>
    intro d
    have hstep :
        addListItemsLoop p d (it :: rest)
          = addListItemsLoop p
              (({ d with texts := d.texts ++ [listItemNode it] } : Document).updateNode p
                (fun n => appendChildren n [⟨Coll.texts, d.texts.length⟩]))
              rest := by
      simp [addListItemsLoop, Document.addTextNode, Document.attach, Document.updateNode,
        appendChildren, listItemNode]
    set dmid : Document := { d with texts := d.texts ++ [listItemNode it] } with hdmid
    set d1 : Document := dmid.updateNode p
      (fun n => appendChildren n [⟨Coll.texts, d.texts.length⟩]) with hd1
    have htexts1 : d1.texts = d.texts ++ [listItemNode it] := by
      rw [hd1, updateNode_texts _ _ _ hpne]
    obtain ⟨ihtexts, ihres⟩ := ih d1
    constructor
    · rw [hstep, ihtexts, htexts1]
      simp
    · intro g hg
      have hmid : dmid.resolve p = some g := by
        rw [hdmid]
        exact (resolve_mk_of_ne_texts d _ _ p hpne).trans hg
      have hres1 : d1.resolve p = some (appendChildren g [⟨Coll.texts, d.texts.length⟩]) := by
        rw [hd1, resolve_updateNode_self, hmid]
        rfl
      have hfin := ihres _ hres1
      rw [hstep, hfin, htexts1, appendChildren_append]
      have hlen : (d.texts ++ [listItemNode it]).length = d.texts.length + 1 := by simp
      rw [hlen]
      simp only [List.length_cons, List.singleton_append]
      rw [textAnchorsFrom_succ]

/-- C5: `add_list_items_to_list_in_docling_document` succeeds exactly when
the build-stack top is a `List`/`OrderedList` group: for EVERY other stack
top it fails with the `No list is currently opened` validation error and the
server state is exactly as before.  On success the message is the ok
confirmation and the stack cache is untouched; moreover, when the top
entry's anchor lives in the `groups` collection (as every group created by
`open_list` does), it appends one `ListItem` node per input entry, in input
order, each holding the entry's item text and marker text, as a child of
that group. -/
theorem C5_add_list_items_order_and_guard
    (key : String) (items : List ListItemInput) (s : ServerState)
    (doc : Document) (e : StackEntry) (rest : List StackEntry)
    (hdoc : lookupKey key s.local_document_cache = some doc)
    (hst : lookupKey key s.local_stack_cache = some (e :: rest)) :
    (e.kind.isOpenListGroup = false →
      add_list_items_to_list_in_docling_document key items s = (s, .error noListOpenMsg))
    ∧ (e.kind.isOpenListGroup = true →
      (add_list_items_to_list_in_docling_document key items s).2
          = .ok s!"added list_items to list in document with key: {key}"
      ∧ ((add_list_items_to_list_in_docling_document key items s).1).local_stack_cache
          = s.local_stack_cache
      ∧ lookupKey key
            (((add_list_items_to_list_in_docling_document key items s).1).local_document_cache)
            = some (addListItemsLoop e.anchor doc items)
      ∧ (e.anchor.coll = Coll.groups →
          (addListItemsLoop e.anchor doc items).texts = doc.texts ++ items.map listItemNode
          ∧ (∀ i, i < items.length →
              (addListItemsLoop e.anchor doc items).texts[doc.texts.length + i]?
                = (items.map listItemNode)[i]?)
          ∧ (∀ g, doc.resolve e.anchor = some g →
              (addListItemsLoop e.anchor doc items).resolve e.anchor
                = some (appendChildren g
                    (textAnchorsFrom doc.texts.length items.length))))) := by
  constructor
  · intro hkind
    unfold add_list_items_to_list_in_docling_document
    simp [hdoc, hst, hkind]
  · intro hkind
    have hcall :
        add_list_items_to_list_in_docling_document key items s
          = ({ s with local_document_cache :=
                 setKey key (addListItemsLoop e.anchor doc items) s.local_document_cache },
             .ok s!"added list_items to list in document with key: {key}") := by
      unfold add_list_items_to_list_in_docling_document
      simp [hdoc, hst, hkind]
    rw [hcall]
    refine ⟨rfl, rfl, by simp [lookupKey_setKey_self], ?_⟩
    intro hcoll
    obtain ⟨htexts, hres⟩ := addListItemsLoop_spec e.anchor hcoll items doc
    refine ⟨htexts, ?_, hres⟩
    intro i hi
    rw [htexts, List.getElem?_append_right (Nat.le_add_right _ _)]
    simp

/-- Witness for C5, exercising both branches: on a concrete state whose
stack top is a plain text node the call fails with the validation error and
changes nothing, and on a concrete open list it succeeds with the stack
cache untouched. -/
theorem C5_add_list_items_order_and_guard_witness :
    add_list_items_to_list_in_docling_document "k" [⟨"a", "-"⟩] exTextState
      = (exTextState, .error noListOpenMsg)
    ∧ ((add_list_items_to_list_in_docling_document "k" [⟨"a", "-"⟩] exListState).1).local_stack_cache
      = exListState.local_stack_cache := by
  refine ⟨?_, ?_⟩
  · exact (C5_add_list_items_order_and_guard "k" [⟨"a", "-"⟩] exTextState exTextDoc
      ⟨⟨Coll.texts, 0⟩, .text⟩ [] (by decide) (by decide)).1 (by decide)
  · exact (((C5_add_list_items_order_and_guard "k" [⟨"a", "-"⟩] exListState exListDoc
      ⟨⟨Coll.groups, 0⟩, .listGroup⟩ [] (by decide) (by decide)).2 (by decide)).2).1

theorem modifyAt_length (i : Nat) (f : α → α) (l : List α) :
    (modifyAt i f l).length = l.length := by
  induction l generalizing i with
  | nil => simp [modifyAt]
  | cons x xs ih =>
    cases i with
    | zero => simp [modifyAt]
    | succ j => simpa [modifyAt] using ih j

theorem updateNode_tables_length (d : Document) (a : Anchor) (f : Node → Node) :
    ((d.updateNode a f).tables).length = d.tables.length := by
  obtain ⟨c, i⟩ := a
  cases c
  · rfl
  · rfl
  · simpa [Document.updateNode, Document.setColl, Document.getColl] using
      modifyAt_length i (Option.map f) d.tables

/-- The node created for one caption string. -/
def captionNode (c : String) : Option Node :=
  some (Node.mkText .caption c "" false)

/-- The node created for one footnote string. -/
def footnoteNode (c : String) : Option Node :=
  some (Node.mkText .footnote c "" false)

/-- A table node with the given payload, before captions/footnotes. -/
def tableNode (t : TableData) : Node :=
  { Node.mkText .table "" "" false with tdata := some t }

/-- `n` with extra caption refs appended (in order). -/
def appendCaptions (n : Node) (as : List Anchor) : Node :=
  { n with captions := n.captions ++ as }

/-- `n` with extra footnote refs appended (in order). -/
def appendFootnotes (n : Node) (as : List Anchor) : Node :=
  { n with footnotes := n.footnotes ++ as }

theorem appendCaptions_append (n : Node) (as bs : List Anchor) :
    appendCaptions (appendCaptions n as) bs = appendCaptions n (as ++ bs) := by
  simp [appendCaptions]

theorem appendFootnotes_append (n : Node) (as bs : List Anchor) :
    appendFootnotes (appendFootnotes n as) bs = appendFootnotes n (as ++ bs) := by
  simp [appendFootnotes]

/-- What the caption loop does: appends one caption text node per string, in
input order, and appends the matching refs to the table's `captions`. -/
theorem addCaptionsLoop_spec (ta : Anchor) (hta : ta.coll = Coll.tables)
    (cs : List String) :
    ∀ d : Document,
      (addCaptionsLoop ta d cs).texts = d.texts ++ cs.map captionNode
      ∧ ((addCaptionsLoop ta d cs).tables).length = d.tables.length
      ∧ ∀ n, d.resolve ta = some n →
          (addCaptionsLoop ta d cs).resolve ta
            = some (appendCaptions n (textAnchorsFrom d.texts.length cs.length)) := by
  have htne : ta.coll ≠ Coll.texts := by rw [hta]; intro hc; cases hc
  induction cs with
  | nil =>
    intro d
    refine ⟨by simp [addCaptionsLoop], by simp [addCaptionsLoop], ?_⟩
    intro n hn
    simp [addCaptionsLoop, hn, appendCaptions, textAnchorsFrom]
  | cons c rest ih =>
    intro d
    have hstep :
        addCaptionsLoop ta d (c :: rest)
          = addCaptionsLoop ta
              (({ d with texts := d.texts ++ [captionNode c],
                         body := d.body ++ [⟨Coll.texts, d.texts.length⟩] } : Document).updateNode ta
                (fun n => appendCaptions n [⟨Coll.texts, d.texts.length⟩]))
              rest := by
      simp [addCaptionsLoop, Document.addTextNode, Document.attach, appendCaptions, captionNode]
    set dmid : Document :=
      { d with texts := d.texts ++ [captionNode c],
               body := d.body ++ [⟨Coll.texts, d.texts.length⟩] } with hdmid
    set d1 : Document := dmid.updateNode ta
      (fun n => appendCaptions n [⟨Coll.texts, d.texts.length⟩]) with hd1
    have htexts1 : d1.texts = d.texts ++ [captionNode c] := by
      rw [hd1, updateNode_texts _ _ _ htne]
    have htab1 : d1.tables.length = d.tables.length := by
      rw [hd1, updateNode_tables_length]
    obtain ⟨ihtexts, ihtab, ihres⟩ := ih d1
    refine ⟨?_, ?_, ?_⟩
    · rw [hstep, ihtexts, htexts1]
      simp
    · rw [hstep, ihtab, htab1]
    · intro n hn
      have hmid : dmid.resolve ta = some n := by
        rw [hdmid]
        exact (resolve_mk_of_ne_texts d _ _ ta htne).trans hn
      have hres1 : d1.resolve ta = some (appendCaptions n [⟨Coll.texts, d.texts.length⟩]) := by
        rw [hd1, resolve_updateNode_self, hmid]
        rfl
      have hfin := ihres _ hres1
      rw [hstep, hfin, htexts1, appendCaptions_append]
      have hlen : (d.texts ++ [captionNode c]).length = d.texts.length + 1 := by simp
      rw [hlen]
      simp only [List.length_cons, List.singleton_append]
      rw [textAnchorsFrom_succ]

/-- What the footnote loop does, mirroring `addCaptionsLoop_spec`. -/
theorem addFootnotesLoop_spec (ta : Anchor) (hta : ta.coll = Coll.tables)
    (cs : List String) :
    ∀ d : Document,
      (addFootnotesLoop ta d cs).texts = d.texts ++ cs.map footnoteNode
      ∧ ((addFootnotesLoop ta d cs).tables).length = d.tables.length
      ∧ ∀ n, d.resolve ta = some n →
          (addFootnotesLoop ta d cs).resolve ta
            = some (appendFootnotes n (textAnchorsFrom d.texts.length cs.length)) := by
  have htne : ta.coll ≠ Coll.texts := by rw [hta]; intro hc; cases hc
  induction cs with
  | nil =>
    intro d
    refine ⟨by simp [addFootnotesLoop], by simp [addFootnotesLoop], ?_⟩
    intro n hn
    simp [addFootnotesLoop, hn, appendFootnotes, textAnchorsFrom]
  | cons c rest ih =>
    intro d
    have hstep :
        addFootnotesLoop ta d (c :: rest)
          = addFootnotesLoop ta
              (({ d with texts := d.texts ++ [footnoteNode c],
                         body := d.body ++ [⟨Coll.texts, d.texts.length⟩] } : Document).updateNode ta
                (fun n => appendFootnotes n [⟨Coll.texts, d.texts.length⟩]))
              rest := by
      simp [addFootnotesLoop, Document.addTextNode, Document.attach, appendFootnotes, footnoteNode]
    set dmid : Document :=
      { d with texts := d.texts ++ [footnoteNode c],
               body := d.body ++ [⟨Coll.texts, d.texts.length⟩] } with hdmid
    set d1 : Document := dmid.updateNode ta
      (fun n => appendFootnotes n [⟨Coll.texts, d.texts.length⟩]) with hd1
    have htexts1 : d1.texts = d.texts ++ [footnoteNode c] := by
      rw [hd1, updateNode_texts _ _ _ htne]
    have htab1 : d1.tables.length = d.tables.length := by
      rw [hd1, updateNode_tables_length]
    obtain ⟨ihtexts, ihtab, ihres⟩ := ih d1
    refine ⟨?_, ?_, ?_⟩
    · rw [hstep, ihtexts, htexts1]
      simp
    · rw [hstep, ihtab, htab1]
    · intro n hn
      have hmid : dmid.resolve ta = some n := by
        rw [hdmid]
        exact (resolve_mk_of_ne_texts d _ _ ta htne).trans hn
      have hres1 : d1.resolve ta = some (appendFootnotes n [⟨Coll.texts, d.texts.length⟩]) := by
        rw [hd1, resolve_updateNode_self, hmid]
        rfl
      have hfin := ihres _ hres1
      rw [hstep, hfin, htexts1, appendFootnotes_append]
      have hlen : (d.texts ++ [footnoteNode c]).length = d.texts.length + 1 := by simp
      rw [hlen]
      simp only [List.length_cons, List.singleton_append]
      rw [textAnchorsFrom_succ]

/-- C6: for a registered document with a non-empty build stack, if the
external HTML parse of the table yields no tables (or the conversion fails),
`add_table_in_html_format_to_docling_document` fails with its parse error
and the server state — hence the document — is exactly as before (the parse
happens before any mutation); on success only the FIRST parsed table is
inserted (exactly one table is appended and carries the first payload),
caption and footnote children are appended in the caller-supplied order, and
the build stack is untouched. -/
theorem C6_add_table_parse_before_mutate
    (key : String) (convOk : Bool) (parsedTables : List TableData)
    (caps fns : List String) (s : ServerState) (doc : Document)
    (e : StackEntry) (rest : List StackEntry)
    (hdoc : lookupKey key s.local_document_cache = some doc)
    (hst : lookupKey key s.local_stack_cache = some (e :: rest)) :
    ((convOk = false ∨ parsedTables = []) →
      add_table_in_html_format_to_docling_document key convOk parsedTables caps fns s
        = (s, .error "Could not parse the html string of the table! Please fix the html and try again!"))
    ∧ (∀ t0 ts, convOk = true → parsedTables = t0 :: ts →
      (add_table_in_html_format_to_docling_document key convOk parsedTables caps fns s).2
          = .ok s!"Added table to a document with key: {key}"
      ∧ ((add_table_in_html_format_to_docling_document key convOk parsedTables caps fns s).1).local_stack_cache
          = s.local_stack_cache
      ∧ ∃ d', lookupKey key
            (((add_table_in_html_format_to_docling_document key convOk parsedTables caps fns s).1).local_document_cache)
            = some d'
          ∧ d'.tables.length = doc.tables.length + 1
          ∧ d'.resolve ⟨Coll.tables, doc.tables.length⟩
              = some (appendFootnotes
                  (appendCaptions (tableNode t0) (textAnchorsFrom doc.texts.length caps.length))
                  (textAnchorsFrom (doc.texts.length + caps.length) fns.length))
          ∧ (∀ i, i < caps.length →
              d'.texts[doc.texts.length + i]? = (caps.map captionNode)[i]?)
          ∧ (∀ i, i < fns.length →
              d'.texts[doc.texts.length + caps.length + i]? = (fns.map footnoteNode)[i]?)) := by
  constructor
  · intro hfail
    unfold add_table_in_html_format_to_docling_document
    rcases hfail with hck | htb
    · subst hck
      simp [hdoc, hst]
    · subst htb
      cases convOk <;> simp [hdoc, hst]
  · intro t0 ts hck htb
    subst hck
    subst htb
    set ta : Anchor := ⟨Coll.tables, doc.tables.length⟩ with hta
    set d1 : Document := (doc.addTable t0).1 with hd1
    set d2 : Document := addCaptionsLoop ta d1 caps with hd2
    set d3 : Document := addFootnotesLoop ta d2 fns with hd3
    have haddsnd : (doc.addTable t0).2 = ta := by rw [hta]; rfl
    have hcall :
        add_table_in_html_format_to_docling_document key true (t0 :: ts) caps fns s
          = ({ s with local_document_cache := setKey key d3 s.local_document_cache },
             .ok s!"Added table to a document with key: {key}") := by
      unfold add_table_in_html_format_to_docling_document
      simp [hdoc, hst, hd3, hd2, hd1, haddsnd]
    have htexts1 : d1.texts = doc.texts := by rw [hd1]; rfl
    have htab1 : d1.tables = doc.tables ++ [some (tableNode t0)] := by rw [hd1]; rfl
    have hres1 : d1.resolve ta = some (tableNode t0) := by
      rw [hd1, hta]
      show ((doc.tables ++ [some (tableNode t0)])[doc.tables.length]?).join = some (tableNode t0)
      rw [List.getElem?_append_right (Nat.le_refl _)]
      simp
    have htacoll : ta.coll = Coll.tables := by rw [hta]
    obtain ⟨h2texts, h2tab, h2res⟩ := addCaptionsLoop_spec ta htacoll caps d1
    obtain ⟨h3texts, h3tab, h3res⟩ := addFootnotesLoop_spec ta htacoll fns d2
    have hres2 : d2.resolve ta
        = some (appendCaptions (tableNode t0) (textAnchorsFrom doc.texts.length caps.length)) := by
      rw [hd2]
      rw [htexts1] at h2res
      exact h2res _ hres1
    have h2texts' : d2.texts = doc.texts ++ caps.map captionNode := by
      rw [hd2]
      rw [htexts1] at h2texts
      exact h2texts
    have hres3 : d3.resolve ta
        = some (appendFootnotes
            (appendCaptions (tableNode t0) (textAnchorsFrom doc.texts.length caps.length))
            (textAnchorsFrom (doc.texts.length + caps.length) fns.length)) := by
      rw [hd3]
      have := h3res _ hres2
      rw [h2texts'] at this
      simpa using this
    have h3texts' : d3.texts = doc.texts ++ caps.map captionNode ++ fns.map footnoteNode := by
      rw [hd3, h3texts, h2texts']
    have h3tab' : d3.tables.length = doc.tables.length + 1 := by
      rw [hd3, h3tab, hd2, h2tab, htab1]
      simp
    rw [hcall]
    refine ⟨rfl, rfl, d3, by simp [lookupKey_setKey_self], h3tab', hres3, ?_, ?_⟩
    · intro i hi
      rw [h3texts', List.append_assoc,
        List.getElem?_append_right (Nat.le_add_right _ _)]
      simp only [Nat.add_sub_cancel_left]
      rw [List.getElem?_append_left (by simpa using hi)]
    · intro i hi
      rw [h3texts', List.append_assoc, List.getElem?_append_right (by omega)]
      have hidx : doc.texts.length + caps.length + i - doc.texts.length = caps.length + i := by
        omega
      rw [hidx, List.getElem?_append_right (by simp)]
      have hidx2 : caps.length + i - (List.map captionNode caps).length = i := by simp
      rw [hidx2]

/-- Witness for C6: a failed parse on a concrete state changes nothing. -/
theorem C6_add_table_parse_before_mutate_witness :
    add_table_in_html_format_to_docling_document "k" false [] [] [] exTextState
      = (exTextState,
         .error "Could not parse the html string of the table! Please fix the html and try again!") :=
  (C6_add_table_parse_before_mutate "k" false [] [] [] exTextState exTextDoc
    ⟨⟨Coll.texts, 0⟩, .text⟩ [] (by decide) (by decide)).1 (Or.inl rfl)

/-- C8: for a registered document and an anchor that resolves to one of its
nodes, `get_text_of_document_item_at_anchor` fails with the `not a textual
item` error exactly when the node is not text-bearing (and never mutates the
state), `update_text_of_document_item_at_anchor` fails under the same
condition leaving the state untouched, and on success `update_text` replaces
exactly that node's text payload, leaving every other anchor's node and the
whole build stack unchanged. -/
theorem C8_text_ops_wrong_kind_guard
    (key : String) (a : Anchor) (newText : String) (s : ServerState)
    (doc : Document) (n : Node)
    (hdoc : lookupKey key s.local_document_cache = some doc)
    (hres : doc.resolve a = some n) :
    (get_text_of_document_item_at_anchor key a s
        = (s, .error (notTextualMsg a.cref key)) ↔ n.kind.isTextBearing = false)
    ∧ (get_text_of_document_item_at_anchor key a s).1 = s
    ∧ ((update_text_of_document_item_at_anchor key a newText s).2
        = .error (notTextualMsg a.cref key) ↔ n.kind.isTextBearing = false)
    ∧ (n.kind.isTextBearing = false →
        update_text_of_document_item_at_anchor key a newText s
          = (s, .error (notTextualMsg a.cref key)))
    ∧ (n.kind.isTextBearing = true →
        ∃ d', lookupKey key
            (((update_text_of_document_item_at_anchor key a newText s).1).local_document_cache)
            = some d'
          ∧ d'.resolve a = some { n with text := newText }
          ∧ (∀ b, b ≠ a → d'.resolve b = doc.resolve b)
          ∧ ((update_text_of_document_item_at_anchor key a newText s).1).local_stack_cache
              = s.local_stack_cache) := by
  unfold get_text_of_document_item_at_anchor update_text_of_document_item_at_anchor
  cases hk : n.kind.isTextBearing with
  | false =>
    refine ⟨by simp [hdoc, hres, hk], by simp [hdoc, hres, hk], by simp [hdoc, hres, hk],
      fun _ => by simp [hdoc, hres, hk], fun hcontra => by simp [hk] at hcontra⟩
  | true =>
    refine ⟨by simp [hdoc, hres, hk], by simp [hdoc, hres, hk], by simp [hdoc, hres, hk],
      fun hcontra => by simp [hk] at hcontra, fun _ => ?_⟩
    refine ⟨doc.updateNode a (fun m => { m with text := newText }), ?_, ?_, ?_, ?_⟩
    · simp [hdoc, hres, hk, lookupKey_setKey_self]
    · rw [resolve_updateNode_self, hres]
      rfl
    · intro b hb
      exact resolve_updateNode_ne doc hb _
    · simp [hdoc, hres, hk]

/-- Witness for C8: reading the text of a concrete text node leaves the
state untouched. -/
theorem C8_text_ops_wrong_kind_guard_witness :
    (get_text_of_document_item_at_anchor "k" ⟨Coll.texts, 0⟩ exTextState).1 = exTextState :=
  (C8_text_ops_wrong_kind_guard "k" ⟨Coll.texts, 0⟩ "z" exTextState exTextDoc
    (Node.mkText .text "t" "" false) (by decide) (by decide)).2.1

/-- One overview line as claim C7 words the indentation rule: EVERY node's
indentation equals its nesting depth plus the level of the most recently
seen section heading, each line prefixed with the node's anchor and kind,
titles and headings additionally showing their text.  This refinement
definition follows the claim's words, for comparison with `overviewLine`
(which follows the source). -/
def claimOverviewLine (slevel : Nat) (x : Anchor × Node × Nat) : String :=
  match x.2.1.kind with
  | .title => indentStr (x.2.2 + slevel) ++ s!"[anchor:{x.1.cref}] title: {x.2.1.text}"
  | .sectionHeader _ =>
    indentStr (x.2.2 + slevel) ++ s!"[anchor:{x.1.cref}] section_header-{x.2.2}: {x.2.1.text}"
  | k => indentStr (x.2.2 + slevel) ++ s!"[anchor:{x.1.cref}] " ++ k.labelStr

/-- The overview as claim C7 describes it (same traversal and running
heading level, indentation per `claimOverviewLine`). -/
def claimOverviewLinesAux (slevel : Nat) : List (Anchor × Node × Nat) → List String
  | [] => []
  | x :: rest =>
    claimOverviewLine (slevelUpd slevel x) x :: claimOverviewLinesAux (slevelUpd slevel x) rest

/-- The overview of a whole document as claim C7 describes it. -/
def claimOverviewLines (d : Document) : List String :=
  claimOverviewLinesAux 0 d.iterateItems

/-- The heading level in force after scanning a prefix of the iteration, in
document order. -/
def runningSlevel (slevel : Nat) (l : List (Anchor × Node × Nat)) : Nat :=
  l.foldl slevelUpd slevel

theorem overviewLinesAux_length (slevel : Nat) (l : List (Anchor × Node × Nat)) :
    (overviewLinesAux slevel l).length = l.length := by
  induction l generalizing slevel with
  | nil => rfl
  | cons x rest ih => simpa [overviewLinesAux] using ih (slevelUpd slevel x)

theorem overviewLinesAux_getElem (l : List (Anchor × Node × Nat)) :
    ∀ slevel i x, l[i]? = some x →
      (overviewLinesAux slevel l)[i]?
        = some (overviewLine (runningSlevel slevel (l.take (i + 1))) x) := by
  induction l with
  | nil => intro slevel i x h; simp at h
  | cons y rest ih =>
    intro slevel i x h
    cases i with
    | zero =>
      simp only [List.getElem?_cons_zero, Option.some.injEq] at h
      subst h
      simp [overviewLinesAux, runningSlevel, List.take]
    | succ j =>
      simp only [List.getElem?_cons_succ] at h
      have hstep : (overviewLinesAux slevel (y :: rest))[j + 1]?
          = (overviewLinesAux (slevelUpd slevel y) rest)[j]? := by
        simp [overviewLinesAux]
      rw [hstep, ih (slevelUpd slevel y) j x h]
      congr 1

/-- C7, counterexample to the claimed indentation rule: in a document whose
only (body) node is a plain text paragraph, the source indents the line by
nesting depth + heading level + 1 units, not by nesting depth + heading
level as the claim states, so the rendred overview differs from the
claim's. -/
theorem C7_overview_indentation_counterexample :
    overviewLines exTextDoc ≠ claimOverviewLines exTextDoc := by decide

/-- C7 (amended): the overview is a read-only projection (the state is
returned unchanged) listing exactly one line per iterated (live,
non-furniture) node in depth-first pre-order; the line of node `i` is
rendered by `overviewLine` with the level of the most recently seen section
heading in document order (including node `i` itself when it is a heading):
titles carry no indentation, a section heading is indented by its nesting
depth plus its own level, and every other node by its nesting depth plus
that running heading level plus one. -/
theorem C7_overview_indentation_amended
    (key : String) (s : ServerState) (doc : Document)
    (hdoc : lookupKey key s.local_document_cache = some doc) :
    get_overview_of_document_anchors key s
        = (s, .ok (String.intercalate "\n" (overviewLines doc)))
    ∧ (overviewLines doc).length = doc.iterateItems.length
    ∧ (∀ i x, doc.iterateItems[i]? = some x →
        (overviewLines doc)[i]?
          = some (overviewLine (runningSlevel 0 (doc.iterateItems.take (i + 1))) x)) := by
  refine ⟨?_, overviewLinesAux_length 0 _, fun i x h => overviewLinesAux_getElem _ 0 i x h⟩
  unfold get_overview_of_document_anchors
  simp [hdoc, overviewLines]

/-- Witness for the amended C7 at a concrete one-paragraph document. -/
theorem C7_overview_indentation_amended_witness :
    get_overview_of_document_anchors "k" exTextState
      = (exTextState, .ok (String.intercalate "\n" (overviewLines exTextDoc))) :=
  (C7_overview_indentation_amended "k" exTextState exTextDoc (by decide)).1

/-- The implicit registry invariant of claim C9: every key with a cached
document also has a cached, non-empty build stack. -/
def StackInv (s : ServerState) : Prop :=
  ∀ k d, lookupKey k s.local_document_cache = some d →
    ∃ st, lookupKey k s.local_stack_cache = some st ∧ st ≠ []

theorem stackInv_empty : StackInv ServerState.empty := by
  intro k d h
  simp [ServerState.empty, lookupKey] at h

theorem stackInv_setBoth {s : ServerState} (h : StackInv s) (k : String) (d : Document)
    (st : List StackEntry) (hne : st ≠ []) :
    StackInv ⟨setKey k d s.local_document_cache, setKey k st s.local_stack_cache⟩ := by
  intro k' d' hd'
  by_cases hk : k' = k
  · subst hk
    exact ⟨st, lookupKey_setKey_self k' st s.local_stack_cache, hne⟩
  · rw [lookupKey_setKey_ne hk] at hd'
    obtain ⟨st', h1, h2⟩ := h k' d' hd'
    exact ⟨st', by rw [lookupKey_setKey_ne hk]; exact h1, h2⟩

theorem stackInv_setDoc {s : ServerState} (h : StackInv s) (k : String) (d : Document)
    (hex : ∃ st, lookupKey k s.local_stack_cache = some st ∧ st ≠ []) :
    StackInv { s with local_document_cache := setKey k d s.local_document_cache } := by
  intro k' d' hd'
  by_cases hk : k' = k
  · subst hk
    exact hex
  · rw [lookupKey_setKey_ne hk] at hd'
    exact h k' d' hd'

theorem stackInv_setStack {s : ServerState} (h : StackInv s) (k : String)
    (st : List StackEntry) (hne : st ≠ []) :
    StackInv { s with local_stack_cache := setKey k st s.local_stack_cache } := by
  intro k' d' hd'
  by_cases hk : k' = k
  · subst hk
    exact ⟨st, lookupKey_setKey_self k' st s.local_stack_cache, hne⟩
  · obtain ⟨st', h1, h2⟩ := h k' d' hd'
    exact ⟨st', by rw [lookupKey_setKey_ne hk]; exact h1, h2⟩

theorem stackInv_addSiblingNode (key : String) (kind : NodeKind) (text lm om : String)
    {s : ServerState} (h : StackInv s) :
    StackInv ((addSiblingNode key kind text lm om s).1) := by
  unfold addSiblingNode
  repeat' split
  · exact h
  · exact h
  · exact h
  · exact h
  · exact stackInv_setBoth h key _ _ (by simp)

/-- C9: the registry invariant (document cached → non-empty stack cached)
holds of the empty start state, is established for the new key by both
document-creation paths, and is preserved by every modelled operation. -/
theorem C9_doc_cache_implies_nonempty_stack
    (s : ServerState) (h : StackInv s)
    (prompt source key title heading para text2 : String) (lvl : Nat)
    (convOk : Bool) (rdoc : Document) (items : List ListItemInput)
    (tbls : List TableData) (caps fns : List String) (a : Anchor) (as : List Anchor) :
    StackInv ServerState.empty
    ∧ StackInv (create_new_docling_document prompt s).1
    ∧ StackInv (convert_pdf_document_into_json_docling_document_from_uri_path
        source convOk rdoc s).1
    ∧ StackInv (add_title_to_docling_document key title s).1
    ∧ StackInv (add_section_heading_to_docling_document key heading lvl s).1
    ∧ StackInv (add_paragraph_to_docling_document key para s).1
    ∧ StackInv (open_list_in_docling_document key s).1
    ∧ StackInv (close_list_in_docling_document key s).1
    ∧ StackInv (add_list_items_to_list_in_docling_document key items s).1
    ∧ StackInv (add_table_in_html_format_to_docling_document key convOk tbls caps fns s).1
    ∧ StackInv (get_overview_of_document_anchors key s).1
    ∧ StackInv (export_docling_document_to_markdown key s).1
    ∧ StackInv (save_docling_document key s).1
    ∧ StackInv (get_text_of_document_item_at_anchor key a s).1
    ∧ StackInv (update_text_of_document_item_at_anchor key a text2 s).1
    ∧ StackInv (delete_document_items_at_anchors key as s).1 := by
  refine ⟨stackInv_empty, ?_, ?_, stackInv_addSiblingNode key .title title _ _ h,
    stackInv_addSiblingNode key (.sectionHeader lvl) heading _ _ h,
    stackInv_addSiblingNode key .text para _ _ h, ?_, ?_, ?_, ?_, ?_, ?_, ?_, ?_, ?_, ?_⟩
  · unfold create_new_docling_document
    exact stackInv_setBoth h _ _ _ (by simp)
  · unfold convert_pdf_document_into_json_docling_document_from_uri_path
    repeat' split
    · exact h
    · exact stackInv_setBoth h _ _ _ (by simp)
    · exact h
  · unfold open_list_in_docling_document
    repeat' split
    · exact h
    · exact h
    · exact h
    · exact stackInv_setBoth h key _ _ (by simp)
  · unfold close_list_in_docling_document
    repeat' split
    · exact h
    · exact h
    · exact h
    · rename_i st hst hlen
      refine stackInv_setStack h key st.tail ?_
      cases st with
      | nil => simp at hlen
      | cons e rest =>
        cases rest with
        | nil => simp at hlen
        | cons f r => simp
  · unfold add_list_items_to_list_in_docling_document
    repeat' split
    · exact h
    · exact h
    · exact h
    · exact stackInv_setDoc h key _ (h key _ (by assumption))
    · exact h
  · unfold add_table_in_html_format_to_docling_document
    repeat' split
    · exact h
    · exact h
    · exact h
    · exact stackInv_setDoc h key _ (h key _ (by assumption))
    · exact h
    · exact h
  · unfold get_overview_of_document_anchors
    repeat' split
    · exact h
    · exact h
  · unfold export_docling_document_to_markdown
    repeat' split
    · exact h
    · exact h
  · unfold save_docling_document
    repeat' split
    · exact h
    · exact h
  · unfold get_text_of_document_item_at_anchor
    repeat' split
    · exact h
    · exact h
    · exact h
    · exact h
  · unfold update_text_of_document_item_at_anchor
    repeat' split
    · exact h
    · exact h
    · exact stackInv_setDoc h key _ (h key _ (by assumption))
    · exact h
  · unfold delete_document_items_at_anchors
    repeat' split
    · exact h
    · exact h
    · exact stackInv_setDoc h key _ (h key _ (by assumption))

/-- Witness for C9 at the empty start state. -/
theorem C9_doc_cache_implies_nonempty_stack_witness :
    StackInv (create_new_docling_document "p" ServerState.empty).1 :=
  (C9_doc_cache_implies_nonempty_stack ServerState.empty
    (by intro k d hcontra; simp [ServerState.empty, lookupKey] at hcontra)
    "p" "src" "k" "t" "h" "par" "t2" 1 true Document.fresh [] [] [] []
    ⟨Coll.texts, 0⟩ []).2.1

/-- The frame property of claim C10: going from state `s` to state `s'`,
every key other than `k` keeps exactly its document tree and build stack. -/
def framePreserved (k : String) (s s' : ServerState) : Prop :=
  ∀ k', k' ≠ k →
    lookupKey k' s'.local_document_cache = lookupKey k' s.local_document_cache
    ∧ lookupKey k' s'.local_stack_cache = lookupKey k' s.local_stack_cache

theorem framePreserved_refl (k : String) (s : ServerState) : framePreserved k s s :=
  fun _ _ => ⟨rfl, rfl⟩

theorem framePreserved_set (k : String) (s : ServerState) (d : Document)
    (st : List StackEntry) :
    framePreserved k s
      ⟨setKey k d s.local_document_cache, setKey k st s.local_stack_cache⟩ :=
  fun _ hk => ⟨lookupKey_setKey_ne hk _ _, lookupKey_setKey_ne hk _ _⟩

theorem framePreserved_setDoc (k : String) (s : ServerState) (d : Document) :
    framePreserved k s { s with local_document_cache := setKey k d s.local_document_cache } :=
  fun _ hk => ⟨lookupKey_setKey_ne hk _ _, rfl⟩

theorem framePreserved_setStack (k : String) (s : ServerState) (st : List StackEntry) :
    framePreserved k s { s with local_stack_cache := setKey k st s.local_stack_cache } :=
  fun _ hk => ⟨rfl, lookupKey_setKey_ne hk _ _⟩

/-- C10: every structural-edit, anchor and overview operation invoked with
document key `K` leaves the document tree and build stack stored under every
other key `K'` exactly as they were, whether the call succeeds or fails. -/
theorem C10_ops_touch_only_their_key
    (key : String) (s : ServerState) (title heading para text2 : String) (lvl : Nat)
    (convOk : Bool) (items : List ListItemInput)
    (tbls : List TableData) (caps fns : List String) (a : Anchor) (as : List Anchor) :
    framePreserved key s (add_title_to_docling_document key title s).1
    ∧ framePreserved key s (add_section_heading_to_docling_document key heading lvl s).1
    ∧ framePreserved key s (add_paragraph_to_docling_document key para s).1
    ∧ framePreserved key s (open_list_in_docling_document key s).1
    ∧ framePreserved key s (close_list_in_docling_document key s).1
    ∧ framePreserved key s (add_list_items_to_list_in_docling_document key items s).1
    ∧ framePreserved key s
        (add_table_in_html_format_to_docling_document key convOk tbls caps fns s).1
    ∧ framePreserved key s (get_overview_of_document_anchors key s).1
    ∧ framePreserved key s (export_docling_document_to_markdown key s).1
    ∧ framePreserved key s (save_docling_document key s).1
    ∧ framePreserved key s (get_text_of_document_item_at_anchor key a s).1
    ∧ framePreserved key s (update_text_of_document_item_at_anchor key a text2 s).1
    ∧ framePreserved key s (delete_document_items_at_anchors key as s).1 := by
  refine ⟨?_, ?_, ?_, ?_, ?_, ?_, ?_, ?_, ?_, ?_, ?_, ?_, ?_⟩
  · unfold add_title_to_docling_document addSiblingNode
    repeat' split
    all_goals first
      | exact framePreserved_refl key s
      | exact framePreserved_set key s _ _
  · unfold add_section_heading_to_docling_document addSiblingNode
    repeat' split
    all_goals first
      | exact framePreserved_refl key s
      | exact framePreserved_set key s _ _
  · unfold add_paragraph_to_docling_document addSiblingNode
    repeat' split
    all_goals first
      | exact framePreserved_refl key s
      | exact framePreserved_set key s _ _
  · unfold open_list_in_docling_document
    repeat' split
    all_goals first
      | exact framePreserved_refl key s
      | exact framePreserved_set key s _ _
  · unfold close_list_in_docling_document
    repeat' split
    all_goals first
      | exact framePreserved_refl key s
      | exact framePreserved_setStack key s _
  · unfold add_list_items_to_list_in_docling_document
    repeat' split
    all_goals first
      | exact framePreserved_refl key s
      | exact framePreserved_setDoc key s _
  · unfold add_table_in_html_format_to_docling_document
    repeat' split
    all_goals first
      | exact framePreserved_refl key s
      | exact framePreserved_setDoc key s _
  · unfold get_overview_of_document_anchors
    repeat' split
    all_goals exact framePreserved_refl key s
  · unfold export_docling_document_to_markdown
    repeat' split
    all_goals exact framePreserved_refl key s
  · unfold save_docling_document
    repeat' split
    all_goals exact framePreserved_refl key s
  · unfold get_text_of_document_item_at_anchor
    repeat' split
    all_goals exact framePreserved_refl key s
  · unfold update_text_of_document_item_at_anchor
    repeat' split
    all_goals first
      | exact framePreserved_refl key s
      | exact framePreserved_setDoc key s _
  · unfold delete_document_items_at_anchors
    repeat' split
    all_goals first
      | exact framePreserved_refl key s
      | exact framePreserved_setDoc key s _

/-- Witness for C10: an edit under key `k` leaves key `other` untouched in a
concrete state. -/
theorem C10_ops_touch_only_their_key_witness :
    lookupKey "other"
        (((add_paragraph_to_docling_document "k" "p" exTextState).1).local_document_cache)
      = lookupKey "other" exTextState.local_document_cache :=
  (((C10_ops_touch_only_their_key "k" exTextState "t" "h" "p" "t2" 1 true [] [] [] []
      ⟨Coll.texts, 0⟩ []).2.2.1) "other" (by decide)).1

end DoclingMcp
